import Mathlib

/-!
Verification development for the deferred-fetch content proxy.

The development shallowly embeds the fetch-and-persist pipeline of
`src/Fetcher.ts`.  Pure computations (filename generation, sanitization,
whitespace collapsing, JSON re-serialization) are translated directly into
Lean functions.  The external collaborators — the filesystem (`fs.mkdir`,
`fs.writeFile`), the HTTP transport (`fetch`), the HTML engine (JSDOM text
extraction), the Markdown engine (turndown) and the `private-ip` classifier —
are modelled as oracle fields of an environment record `Env`; a run of
`Fetcher._fetchAndSave` is then a total function of the environment and the
request.  Thrown JS exceptions are modelled with `Except`; the `try/catch`
of each public operation is the `Except` case split performed by `runOp`.
Filesystem side effects (directory creation, file writes) are recorded in an
explicit effect trace so that theorems can speak about "no file is written".
-/

namespace DeferredFetch

/-- characters accepted by the sanitizer regex `[a-zA-Z0-9_\-]` of
`generateUniqueFilename` (src/Fetcher.ts line 49). -/
def isAllowedChar (c : Char) : Bool :=
  (('a' ≤ c && c ≤ 'z') || ('A' ≤ c && c ≤ 'Z') || ('0' ≤ c && c ≤ '9')
    || c = '_' || c = '-')

/-- replacement performed on one character by
`baseName.replace(/[^a-zA-Z0-9_\-]/g, "_")`: a character outside the class
becomes an underscore, any other character is kept. -/
def sanitizeChar (c : Char) : Char :=
  if isAllowedChar c then c else '_'

/-- embedding of `baseName.replace(/[^a-zA-Z0-9_\-]/g, "_")` (the regex is
global, so the replacement is applied to every character independently). -/
def sanitizeBase (s : String) : String :=
  ⟨s.data.map sanitizeChar⟩

/-- embedding of `.substring(0, 50)` on the sanitized base name. -/
def truncate50 (s : String) : String :=
  ⟨s.data.take 50⟩

/-- hex digit characters produced by Node's `Buffer.toString("hex")`
(lowercase). -/
def hexDigit (n : Nat) : Char := Nat.digitChar (n % 16)

/-- embedding of `crypto.randomBytes(k).toString("hex")`: every byte becomes
two lowercase hex characters, high nibble first. -/
def bytesToHex : List Nat → String
  | [] => ""
  | b :: bs => ⟨[hexDigit (b / 16), hexDigit b]⟩ ++ bytesToHex bs

/-- parsed view of a URL, holding the two components of the WHATWG `URL`
object that `generateUniqueFilename` reads: `hostname` and `pathname`. -/
structure Url where
  hostname : String
  pathname : String
deriving DecidableEq

/-- split of a character list at the first occurrence of `://`: returns the
text before it and the text after it, or `none` when `://` does not occur. -/
def splitScheme : List Char → Option (List Char × List Char)
  | [] => none
  | ':' :: '/' :: '/' :: rest => some ([], rest)
  | c :: rest =>
    match splitScheme rest with
    | some (pre, post) => some (c :: pre, post)
    | none => none

/-- non-empty `/`-separated segments of a character list, accumulating the
current segment in reverse; the combined effect of `split("/")` followed by
`filter(Boolean)`. -/
def segsAux (cur : List Char) : List Char → List String
  | [] => if cur = [] then [] else [⟨cur.reverse⟩]
  | '/' :: rest => if cur = [] then segsAux [] rest else ⟨cur.reverse⟩ :: segsAux [] rest
  | c :: rest => segsAux (c :: cur) rest

/-- Modelled from the platform `new URL(url)` constructor (an external
capability of the runtime, not repository code), restricted to the simple
absolute `scheme://host/path` URLs exercised here: the text before the first
`://` is the scheme (required, else the constructor throws and we return
`none`), the text after it up to the first `/` is the host (the port, after
`:`, is stripped and letters are lowercased for `hostname`), and the
remainder up to a `?` or `#` is the `pathname` (`/` when absent).
Percent-encoding of special characters is not modelled. -/
def parseUrl (url : String) : Option Url :=
  match splitScheme url.data with
  | none => none
  | some (scheme, rest) =>
    if scheme = [] then none
    else
      let hostPort := rest.takeWhile (fun c => c ≠ '/')
      let hostname := (hostPort.takeWhile (fun c => c ≠ ':')).map Char.toLower
      if hostname = [] then none
      else
        let path := rest.dropWhile (fun c => c ≠ '/')
        let path := path.takeWhile (fun c => c ≠ '?' && c ≠ '#')
        some ⟨⟨hostname⟩, if path = [] then "/" else ⟨path⟩⟩

/-- embedding of `urlObj.pathname.split("/").filter(Boolean)`
(src/Fetcher.ts line 44). -/
def pathSegments (pathname : String) : List String :=
  segsAux [] pathname.data

/-- base name chosen by `generateUniqueFilename` (src/Fetcher.ts lines
44-49): last non-empty path segment when one exists, else the hostname;
then sanitized and truncated to 50 characters. -/
def baseNameOf (u : Url) : String :=
  let segs := pathSegments u.pathname
  let raw := match segs.getLast? with
    | some s => s
    | none => u.hostname
  truncate50 (sanitizeBase raw)

/-- embedding of the timestamp expression of src/Fetcher.ts line 38-39:
`new Date().toISOString().replace(/[-:.]/g, "").slice(0, 15) + "Z"`, as a
function of the ISO-8601 string the clock produced. -/
def timestampOf (isoNow : String) : String :=
  ⟨(isoNow.data.filter (fun c => ¬ (c = '-' ∨ c = ':' ∨ c = '.'))).take 15⟩ ++ "Z"

/-- embedding of `Fetcher.generateUniqueFilename` (src/Fetcher.ts lines
34-52), with the two impure inputs — the clock's `toISOString()` output and
the bytes drawn from `crypto.randomBytes(4)` — passed explicitly.  Returns
`none` when `new URL(url)` throws. -/
def generateUniqueFilename (isoNow : String) (randBytes : List Nat)
    (url : String) (extension : String) : Option String :=
  match parseUrl url with
  | none => none
  | some u =>
    some (timestampOf isoNow ++ "-" ++ bytesToHex randBytes ++ "-"
      ++ baseNameOf u ++ "." ++ extension)

/-- whitespace class of the JS regex `\s` restricted to the characters that
occur in this development (space, tab, newline, carriage return, form feed,
vertical tab). -/
def isJsWs (c : Char) : Bool :=
  (c = ' ' || c = '\t' || c = '\n' || c = '\x0d' || c = '\x0c' || c = '\x0b')

/-- embedding of `content.replace(/\s+/g, " ")`: every maximal run of
whitespace characters is replaced by a single space.  The boolean argument
records whether the previous character belonged to a whitespace run. -/
def collapseRuns : Bool → List Char → List Char
  | _, [] => []
  | prevWs, c :: cs =>
    if isJsWs c then
      if prevWs then collapseRuns true cs else ' ' :: collapseRuns true cs
    else c :: collapseRuns false cs

/-- embedding of `String.prototype.trim` on the collapse result (only spaces
can remain at the ends after collapsing). -/
def trimSpaces (l : List Char) : List Char :=
  ((l.dropWhile isJsWs).reverse.dropWhile isJsWs).reverse

/-- embedding of `content.replace(/\s+/g, " ").trim()` (src/Fetcher.ts line
112). -/
def collapseWs (s : String) : String :=
  ⟨trimSpaces (collapseRuns false s.data)⟩

/-! ### JSON values, `JSON.stringify(v, null, 2)` and `JSON.parse`

`Fetcher._fetchAndSave` re-serializes the platform-parsed response JSON with
`JSON.stringify(jsonData, null, 2)` (src/Fetcher.ts line 96).  Both platform
functions are modelled here: the serializer follows ECMA-262's
`SerializeJSONProperty` with a two-space gap, and the parser is a standard
recursive-descent JSON reader.  Numbers are idealized as integers. -/

/-- JSON value.  Objects keep their members in insertion order, as JS does
when serializing. -/
inductive Json where
  | null : Json
  | bool : Bool → Json
  | num : Int → Json
  | str : String → Json
  | arr : List Json → Json
  | obj : List (String × Json) → Json

/-- decimal digit list (most significant first) of a natural number, as JS
`Number::toString` renders an integral value. -/
def natDigits (n : Nat) : List Char :=
  if _h : n < 10 then [Nat.digitChar n]
  else natDigits (n / 10) ++ [Nat.digitChar (n % 10)]
decreasing_by exact Nat.div_lt_self (by omega) (by omega)

/-- decimal rendering of an integer, as `JSON.stringify` renders an integral
JS number. -/
def serIntL (n : Int) : List Char :=
  if n < 0 then '-' :: natDigits n.natAbs else natDigits n.toNat

/-- escape of one character inside a JSON string, following ECMA-262
`QuoteJSONString`: quote and backslash get a backslash escape, the named
control characters get their short escapes, any other control character
becomes a lowercase `\u00xx` escape, and everything else is copied. -/
def escapeChar (c : Char) : List Char :=
  if c = '"' then ['\\', '"']
  else if c = '\\' then ['\\', '\\']
  else if c = '\x08' then ['\\', 'b']
  else if c = '\x09' then ['\\', 't']
  else if c = '\x0a' then ['\\', 'n']
  else if c = '\x0c' then ['\\', 'f']
  else if c = '\x0d' then ['\\', 'r']
  else if c.toNat < 32 then
    ['\\', 'u', '0', '0', Nat.digitChar (c.toNat / 16), Nat.digitChar (c.toNat % 16)]
  else [c]

/-- character list of a keyword literal. -/
def litL (s : String) : List Char := s.data

/-- escape applied to a whole character list. -/
def escList : List Char → List Char
  | [] => []
  | c :: cs => escapeChar c ++ escList cs

/-- quoted, escaped JSON string literal. -/
def quoteL (s : String) : List Char :=
  '"' :: escList s.data ++ ['"']

/-- indentation of `k` spaces. -/
def spacesL (k : Nat) : List Char := List.replicate k ' '

mutual

/-- embedding of `JSON.stringify(v, null, 2)` at nesting depth `ind`
(`ind` spaces of current indentation), following `SerializeJSONProperty`
with `gap = "  "`: non-empty arrays and objects put every item on its own
line indented by `ind + 2`, separate items with `",\n"`, separate a member
key from its value with `": "`, and close on a fresh line at indentation
`ind`; empty arrays and objects render as `[]` and `\x7b\x7d`. -/
def serJsonL (ind : Nat) : Json → List Char
  | .null => litL "null"
  | .bool true => litL "true"
  | .bool false => litL "false"
  | .num n => serIntL n
  | .str s => quoteL s
  | .arr [] => ['[', ']']
  | .arr (x :: xs) =>
    '[' :: '\n' :: (spacesL (ind + 2) ++ serJsonL (ind + 2) x
      ++ serElemsTail (ind + 2) xs ++ '\n' :: (spacesL ind ++ [']']))
  | .obj [] => ['\x7b', '\x7d']
  | .obj (m :: ms) =>
    '\x7b' :: '\n' :: (spacesL (ind + 2) ++ serMemberL (ind + 2) m
      ++ serMembersTail (ind + 2) ms ++ '\n' :: (spacesL ind ++ ['\x7d']))

/-- serialization of the remaining array elements, each preceded by
`",\n"` and the current indentation. -/
def serElemsTail (ind : Nat) : List Json → List Char
  | [] => []
  | y :: ys => ',' :: '\n' :: (spacesL ind ++ serJsonL ind y ++ serElemsTail ind ys)

/-- serialization of one object member: quoted key, `": "`, value. -/
def serMemberL (ind : Nat) (m : String × Json) : List Char :=
  quoteL m.1 ++ ':' :: ' ' :: serJsonL ind m.2

/-- serialization of the remaining object members, each preceded by
`",\n"` and the current indentation. -/
def serMembersTail (ind : Nat) : List (String × Json) → List Char
  | [] => []
  | m :: ms => ',' :: '\n' :: (spacesL ind ++ serMemberL ind m ++ serMembersTail ind ms)

end

/-- embedding of `JSON.stringify(jsonData, null, 2)` (src/Fetcher.ts line
96). -/
def serializeJson (v : Json) : String := ⟨serJsonL 0 v⟩

/-- JSON insignificant whitespace. -/
def isWsChar (c : Char) : Bool :=
  (c = ' ' || c = '\t' || c = '\n' || c = '\x0d')

/-- skip insignificant whitespace. -/
def skipWs (l : List Char) : List Char := l.dropWhile isWsChar

/-- numeric value of a hex digit accepted in a `\u` escape. -/
def hexVal (c : Char) : Option Nat :=
  if c.isDigit then some (c.toNat - 48)
  else if 'a' ≤ c && c ≤ 'f' then some (c.toNat - 87)
  else if 'A' ≤ c && c ≤ 'F' then some (c.toNat - 55)
  else none

/-- four hex digits read from the head of the input, combined into one
code point value. -/
def readHex4 : List Char → Option (Nat × List Char)
  | h1 :: h2 :: h3 :: h4 :: rest =>
    match hexVal h1, hexVal h2, hexVal h3, hexVal h4 with
    | some a, some b, some g, some d => some (4096 * a + 256 * b + 16 * g + d, rest)
    | _, _, _, _ => none
  | _ => none

/-- one escape sequence after a backslash, following `JSON.parse`:
`\" \\ \/ \b \f \n \r \t` or `\uXXXX`; anything else is rejected. -/
def unescapeStep : List Char → Option (Char × List Char)
  | [] => none
  | e :: rest2 =>
    if e = '"' then some ('"', rest2)
    else if e = '\\' then some ('\\', rest2)
    else if e = '/' then some ('/', rest2)
    else if e = 'b' then some ('\x08', rest2)
    else if e = 'f' then some ('\x0c', rest2)
    else if e = 'n' then some ('\x0a', rest2)
    else if e = 'r' then some ('\x0d', rest2)
    else if e = 't' then some ('\x09', rest2)
    else if e = 'u' then
      match readHex4 rest2 with
      | some (n, rest3) => some (Char.ofNat n, rest3)
      | none => none
    else none

/-- body of a JSON string literal after the opening quote: `acc` holds the
characters read so far in reverse.  Follows `JSON.parse`: a closing quote
ends the literal, a backslash starts an escape, an unescaped control
character is rejected.  The fuel bounds the recursion; every step consumes
at least one character, so the input length is always enough fuel. -/
def parseStrAux : Nat → List Char → List Char → Option (String × List Char)
  | 0, _, _ => none
  | fuel + 1, acc, cs =>
    match cs with
    | [] => none
    | c :: rest =>
      if c = '"' then some (⟨acc.reverse⟩, rest)
      else if c = '\\' then
        match unescapeStep rest with
        | some (d, rest2) => parseStrAux fuel (d :: acc) rest2
        | none => none
      else if c.toNat < 32 then none
      else parseStrAux fuel (c :: acc) rest

/-- value of a decimal digit list. -/
def digitsToNat (l : List Char) : Nat :=
  l.foldl (fun a c => a * 10 + (c.toNat - 48)) 0

/-- longest digit run at the head of the input, as a natural number;
fails when there is no digit. -/
def parseNatL (cs : List Char) : Option (Nat × List Char) :=
  let ds := cs.takeWhile Char.isDigit
  if ds = [] then none
  else some (digitsToNat ds, cs.dropWhile Char.isDigit)

/-- integer literal: optional minus sign followed by digits. -/
def parseIntL (cs : List Char) : Option (Int × List Char) :=
  match cs with
  | [] => none
  | c :: r =>
    if c = '-' then
      match parseNatL r with
      | some (n, rest) => some (-(n : Int), rest)
      | none => none
    else
      match parseNatL cs with
      | some (n, rest) => some ((n : Int), rest)
      | none => none

mutual

/-- fuel-bounded recursive-descent reader for one JSON value, modelling
`JSON.parse`: skips whitespace, dispatches on the first significant
character, and returns the value with the unconsumed input. -/
def parseVal : Nat → List Char → Option (Json × List Char)
  | 0, _ => none
  | fuel + 1, cs =>
    match skipWs cs with
    | [] => none
    | c :: r =>
      if c = 'n' then
        match r with
        | 'u' :: 'l' :: 'l' :: r2 => some (.null, r2)
        | _ => none
      else if c = 't' then
        match r with
        | 'r' :: 'u' :: 'e' :: r2 => some (.bool true, r2)
        | _ => none
      else if c = 'f' then
        match r with
        | 'a' :: 'l' :: 's' :: 'e' :: r2 => some (.bool false, r2)
        | _ => none
      else if c = '"' then
        match parseStrAux r.length [] r with
        | some (s, r2) => some (.str s, r2)
        | none => none
      else if c = '[' then
        match skipWs r with
        | [] => none
        | c2 :: r2 =>
          if c2 = ']' then some (.arr [], r2)
          else
            match parseElemsRest fuel (c2 :: r2) with
            | some (vs, r3) => some (.arr vs, r3)
            | none => none
      else if c = '\x7b' then
        match skipWs r with
        | [] => none
        | c2 :: r2 =>
          if c2 = '\x7d' then some (.obj [], r2)
          else
            match parseMembersRest fuel (c2 :: r2) with
            | some (ms, r3) => some (.obj ms, r3)
            | none => none
      else if c = '-' then
        match parseIntL (c :: r) with
        | some (n, r2) => some (.num n, r2)
        | none => none
      else if c.isDigit then
        match parseIntL (c :: r) with
        | some (n, r2) => some (.num n, r2)
        | none => none
      else none

/-- one or more array elements followed by `]`; returns the rest after the
closing bracket. -/
def parseElemsRest : Nat → List Char → Option (List Json × List Char)
  | 0, _ => none
  | fuel + 1, cs =>
    match parseVal fuel cs with
    | none => none
    | some (v, r) =>
      match skipWs r with
      | [] => none
      | c :: r2 =>
        if c = ',' then
          match parseElemsRest fuel r2 with
          | some (vs, r3) => some (v :: vs, r3)
          | none => none
        else if c = ']' then some ([v], r2)
        else none

/-- one or more object members followed by `\x7d`; returns the rest after
the closing brace. -/
def parseMembersRest : Nat → List Char → Option (List (String × Json) × List Char)
  | 0, _ => none
  | fuel + 1, cs =>
    match skipWs cs with
    | [] => none
    | c :: r =>
      if c = '"' then
        match parseStrAux r.length [] r with
        | none => none
        | some (k, r1) =>
          match skipWs r1 with
          | [] => none
          | c2 :: r2 =>
            if c2 = ':' then
              match parseVal fuel r2 with
              | none => none
              | some (v, r3) =>
                match skipWs r3 with
                | [] => none
                | c3 :: r4 =>
                  if c3 = ',' then
                    match parseMembersRest fuel r4 with
                    | some (ms, r5) => some ((k, v) :: ms, r5)
                    | none => none
                  else if c3 = '\x7d' then some ([(k, v)], r4)
                  else none
            else none
      else none

end

/-- embedding of `JSON.parse`: read one value, then require only whitespace
to remain.  The fuel `s.length + 1` always suffices because every recursion
level strips at least one bracket character. -/
def jsonParse (s : String) : Option Json :=
  match parseVal (s.data.length + 1) s.data with
  | some (v, rest) => if skipWs rest = [] then some v else none
  | none => none

/-- list-level "starts with" check used to state substring facts about error
messages. -/
def startsWithL : List Char → List Char → Bool
  | n :: ns, h :: hs => n = h && startsWithL ns hs
  | [], _ => true
  | _, [] => false

/-- list-level substring check: `containsL needle hay` holds when `needle`
occurs contiguously inside `hay`. -/
def containsL (needle : List Char) : List Char → Bool
  | [] => needle.isEmpty
  | c :: rest => startsWithL needle (c :: rest) || containsL needle rest

/-- substring check on strings, used to state which error messages contain a
given fragment. -/
def containsStr (hay needle : String) : Bool :=
  containsL needle.data hay.data

/-- head-of-input guard stating that the next character (if any) is not a
decimal digit, so a just-parsed number cannot be extended. -/
def headNotDigit : List Char → Bool
  | [] => true
  | c :: _ => !c.isDigit

/-! ### The fetch-and-persist pipeline

`Fetcher._fetchAndSave` (src/Fetcher.ts lines 54-143) and the four public
operations (lines 145-231).  The environment `Env` packages the request's
interaction with every external collaborator; each collaborator's outcome
for this one call is an oracle value or function. -/

/-- request payload of src/types.ts: a URL plus optional custom headers
(the headers only feed the HTTP collaborator and are not read by the core
pipeline logic). -/
structure RequestPayload where
  url : String
  headers : List (String × String)

/-- the slice of a WHATWG fetch `Response` that `_fetchAndSave` reads:
`status` (and through it `ok`), `text()` and `json()`.  `bodyJson` is the
outcome of `response.json()`: the platform-parsed JSON value, or the parse
error it throws. -/
structure HttpResponse where
  status : Nat
  bodyText : String
  bodyJson : Except String Json

/-- embedding of `response.ok` (WHATWG: status in the range 200-299). -/
def responseOk (r : HttpResponse) : Bool :=
  200 ≤ r.status && r.status < 300

/-- filesystem side effects of one pipeline run: a successfully created
(or re-created) download directory, and a successfully written file with
its content. -/
inductive Effect where
  | mkdir : String → Effect
  | write : String → String → Effect
deriving DecidableEq

/-- Oracle environment for one call: outcomes of the external collaborators.
`mkdirError`/`writeError` are `none` on filesystem success, otherwise they
carry the error message of the failed call; `isIpPrivate` is the
`private-ip` package's verdict on the string the code passes it;
`fetchResult` is the settled outcome of `fetch(url, ...)` (error = thrown
message); `extractText` models JSDOM's `document.body.textContent` after
script/style removal (`none` models a null `textContent`); `turndown`
models `TurndownService.turndown`; `isoNow` and `randBytes` are the clock
and entropy inputs of `generateUniqueFilename`. -/
structure Env where
  downloadDir : String
  mkdirError : Option String
  isIpPrivate : String → Bool
  fetchResult : Except String HttpResponse
  extractText : String → Option String
  turndown : String → Except String String
  writeError : Option String
  isoNow : String
  randBytes : List Nat

/-- the private-IP rejection message of src/Fetcher.ts lines 65-67
(verbatim, including the phrase "a local MCP"). -/
def privateIpMessage (url : String) : String :=
  "Fetcher blocked an attempt to fetch a private IP " ++ url
    ++ ". This is to prevent a security vulnerability where a local MCP could fetch privileged local IPs and exfiltrate data."

/-- rewrap applied by `_fetchAndSave`'s catch block (src/Fetcher.ts line
138) to every error thrown inside the try block. -/
def fetchWrap (url msg : String) : String :=
  "Failed to fetch " ++ url ++ ": " ++ msg

/-- the four output formats of `_fetchAndSave`'s `outputFormat` union. -/
inductive OutputFormat where
  | html | json | txt | markdown

/-- file extension assigned in the `switch` of src/Fetcher.ts lines 87-127. -/
def extensionOf : OutputFormat → String
  | .html => "html"
  | .json => "json"
  | .txt => "txt"
  | .markdown => "md"

/-- content type assigned in the same `switch`. -/
def contentTypeOf : OutputFormat → String
  | .html => "text/html"
  | .json => "application/json"
  | .txt => "text/plain"
  | .markdown => "text/markdown"

/-- content computed by the `switch` of src/Fetcher.ts lines 87-127:
html passes the body through, json re-serializes the platform-parsed value
with two-space indentation, txt collapses the whitespace of the extracted
visible text (`document.body.textContent || ""`), markdown converts via
turndown.  An `error` is a thrown transformation error. -/
def transform (env : Env) (resp : HttpResponse) : OutputFormat → Except String String
  | .html => .ok resp.bodyText
  | .json =>
    match resp.bodyJson with
    | .ok v => .ok (serializeJson v)
    | .error e => .error e
  | .txt => .ok (collapseWs ((env.extractText resp.bodyText).getD ""))
  | .markdown => env.turndown resp.bodyText

/-- embedding of `path.join(downloadDir, filename)` for a normalized
directory path without trailing separator. -/
def pathJoin (dir name : String) : String := dir ++ "/" ++ name

/-- body of the `try` block of `_fetchAndSave` (src/Fetcher.ts lines
61-135), before the catch-and-rewrap: ensure the download directory (its
own catch produces the distinct directory message, line 29), reject private
IPs, perform the fetch, require `response.ok`, transform, generate the
filename and write.  The second component is the trace of successful
filesystem effects. -/
def fetchAndSaveRaw (env : Env) (url : String) (fmt : OutputFormat) :
    Except String (String × String) × List Effect :=
  match env.mkdirError with
  | some e => (.error ("Failed to create download directory: " ++ e), [])
  | none =>
    let effs := [Effect.mkdir env.downloadDir]
    if env.isIpPrivate url then (.error (privateIpMessage url), effs)
    else
      match env.fetchResult with
      | .error e => (.error e, effs)
      | .ok resp =>
        if responseOk resp then
          match transform env resp fmt with
          | .error e => (.error e, effs)
          | .ok content =>
            match generateUniqueFilename env.isoNow env.randBytes url (extensionOf fmt) with
            | none => (.error "Invalid URL", effs)
            | some filename =>
              let filePath := pathJoin env.downloadDir filename
              match env.writeError with
              | some e => (.error e, effs)
              | none => (.ok (filePath, contentTypeOf fmt), effs ++ [Effect.write filePath content])
        else (.error ("HTTP error: " ++ Nat.repr resp.status), effs)

/-- embedding of `Fetcher._fetchAndSave`: the try body together with the
catch block of src/Fetcher.ts lines 136-142, which rewraps every thrown
error as `Failed to fetch <url>: <message>`. -/
def fetchAndSave (env : Env) (url : String) (fmt : OutputFormat) :
    Except String (String × String) × List Effect :=
  match fetchAndSaveRaw env url fmt with
  | (.error e, effs) => (.error (fetchWrap url e), effs)
  | (.ok r, effs) => (.ok r, effs)

/-- result shape returned by the four public operations: a list of text
segments plus the `isError` flag. -/
structure FetchResult where
  content : List String
  isError : Bool
deriving DecidableEq

/-- shared body of the four public operations (src/Fetcher.ts lines
145-231, each operation repeats this literally): on success, two text
segments (file path, then content type) with `isError: false`; on a caught
error, one text segment holding the error message with `isError: true`. -/
def runOp (env : Env) (req : RequestPayload) (fmt : OutputFormat) :
    FetchResult × List Effect :=
  match fetchAndSave env req.url fmt with
  | (.ok (fp, ct), effs) =>
    (⟨["File saved to: " ++ fp, "Content-Type: " ++ ct], false⟩, effs)
  | (.error msg, effs) => (⟨[msg], true⟩, effs)

namespace Fetcher

/-- embedding of `Fetcher.html`. -/
def html (env : Env) (req : RequestPayload) : FetchResult × List Effect :=
  runOp env req .html

/-- embedding of `Fetcher.json`. -/
def json (env : Env) (req : RequestPayload) : FetchResult × List Effect :=
  runOp env req .json

/-- embedding of `Fetcher.txt`. -/
def txt (env : Env) (req : RequestPayload) : FetchResult × List Effect :=
  runOp env req .txt

/-- embedding of `Fetcher.markdown`. -/
def markdown (env : Env) (req : RequestPayload) : FetchResult × List Effect :=
  runOp env req .markdown

end Fetcher

/-! ### Concrete fixtures

Fixed clock and entropy matching the repository's unit tests
(`Date` mocked to 2023-10-27T10:30:00Z, `crypto.randomBytes` mocked to hex
`a1b2c3d4`), plus concrete environments used in the closed theorems. -/

/-- the mocked `toISOString()` output of the unit tests. -/
def isoFixed : String := "2023-10-27T10:30:00.000Z"

/-- the mocked random bytes (hex `a1b2c3d4`). -/
def bytesFixed : List Nat := [161, 178, 195, 212]

/-- request whose URL host (10.0.0.1) lies in a private range. -/
def reqPriv : RequestPayload := ⟨"http://10.0.0.1/", []⟩

/-- environment in which the `private-ip` collaborator classifies the
request as private and the filesystem is healthy. -/
def envPriv : Env :=
  ⟨"/downloads", none, fun _ => true, .ok ⟨200, "<p>hi</p>", .error "x"⟩,
    fun _ => some "hi", fun _ => .ok "hi", none, isoFixed, bytesFixed⟩

/-- the malformed-URL request of the repository's integration test. -/
def reqBadUrl : RequestPayload := ⟨"not-a-valid-url", []⟩

/-- environment for the malformed-URL request: the directory is creatable,
`private-ip` returns a falsy verdict for the non-IP string, and
`fetch("not-a-valid-url")` rejects with Node's URL-parse error. -/
def envBadUrl : Env :=
  ⟨"/downloads", none, fun _ => false,
    .error "Failed to parse URL from not-a-valid-url",
    fun _ => some "", fun _ => .ok "", none, isoFixed, bytesFixed⟩

/-- the request of end-to-end scenarios 1 and 2. -/
def reqEx : RequestPayload := ⟨"https://example.com", []⟩

/-- a 404 response. -/
def resp404 : HttpResponse := ⟨404, "", .error "Unexpected end of JSON input"⟩

/-- environment returning HTTP 404. -/
def env404 : Env :=
  ⟨"/downloads", none, fun _ => false, .ok resp404,
    fun _ => some "", fun _ => .ok "", none, isoFixed, bytesFixed⟩

/-- a successful HTML response. -/
def respHtml : HttpResponse :=
  ⟨200, "<html><body><h1>Hello World</h1></body></html>", .error "Unexpected token"⟩

/-- fully healthy environment with a successful HTML response. -/
def envOk : Env :=
  ⟨"/downloads", none, fun _ => false, .ok respHtml,
    fun _ => some "Hello World", fun _ => .ok "Hello World\n===========",
    none, isoFixed, bytesFixed⟩

/-- environment in which `fs.mkdir` fails with a permission error. -/
def envDirFail : Env :=
  ⟨"/downloads", some "Permission denied", fun _ => false, .ok respHtml,
    fun _ => some "", fun _ => .ok "", none, isoFixed, bytesFixed⟩

/-- a successful JSON response whose platform-parsed body is
the object with one member `key: "value"` (the unit-test fixture). -/
def respJson : HttpResponse :=
  ⟨200, "", .ok (Json.obj [("key", Json.str "value")])⟩

/-- healthy environment with the JSON response. -/
def envJson : Env :=
  ⟨"/downloads", none, fun _ => false, .ok respJson,
    fun _ => some "", fun _ => .ok "", none, isoFixed, bytesFixed⟩

/-- an HTML response whose body element carries only whitespace text once
scripts and styles are removed. -/
def respBlank : HttpResponse :=
  ⟨200, "<html><head><script>var x = 1;</script></head><body> \n </body></html>",
    .error "x"⟩

/-- environment for the blank-body response: JSDOM's `textContent` of the
script-stripped body is the whitespace-only string. -/
def envBlank : Env :=
  ⟨"/downloads", none, fun _ => false, .ok respBlank,
    fun _ => some " \n ", fun _ => .ok "", none, isoFixed, bytesFixed⟩

/-- request whose path ends in the segment `blank`. -/
def reqBlank : RequestPayload := ⟨"https://example.com/blank", []⟩

/-! ## Theorems

Helper lemmas first (strings, digits, the serializer/parser correspondence),
then one theorem per claim. -/

theorem strMk_data (s : String) : (⟨s.data⟩ : String) = s := by
  cases s
  rfl

theorem digitChar_isDigit {d : Nat} (h : d < 10) :
    (Nat.digitChar d).isDigit = true := by
  interval_cases d <;> decide

theorem digitChar_val {d : Nat} (h : d < 10) :
    (Nat.digitChar d).toNat - 48 = d := by
  interval_cases d <;> decide

theorem digitChar_not_minus {d : Nat} (h : d < 10) :
    (Nat.digitChar d = '-') = False := by
  interval_cases d <;> decide

theorem digitChar_not_ws {d : Nat} (h : d < 10) :
    isWsChar (Nat.digitChar d) = false := by
  interval_cases d <;> decide

theorem hexVal_digitChar {d : Nat} (h : d < 16) :
    hexVal (Nat.digitChar d) = some d := by
  interval_cases d <;> decide

theorem natDigits_ne_nil (n : Nat) : natDigits n ≠ [] := by
  rw [natDigits]
  split <;> simp

theorem natDigits_all_digits (n : Nat) : ∀ c ∈ natDigits n, c.isDigit = true := by
  induction n using Nat.strong_induction_on with
  | _ n ih =>
    rw [natDigits]
    split
    · intro c hc
      rw [List.mem_singleton] at hc
      subst hc
      exact digitChar_isDigit (by omega)
    · intro c hc
      rcases List.mem_append.1 hc with h1 | h1
      · exact ih (n / 10) (Nat.div_lt_self (by omega) (by omega)) c h1
      · rw [List.mem_singleton] at h1
        subst h1
        exact digitChar_isDigit (Nat.mod_lt _ (by omega))

theorem natDigits_head (n : Nat) :
    ∃ d t, d < 10 ∧ natDigits n = Nat.digitChar d :: t := by
  induction n using Nat.strong_induction_on with
  | _ n ih =>
    rw [natDigits]
    split
    · exact ⟨n, [], by omega, rfl⟩
    · obtain ⟨d, t, hd, ht⟩ := ih (n / 10) (Nat.div_lt_self (by omega) (by omega))
      exact ⟨d, t ++ [Nat.digitChar (n % 10)], hd, by rw [ht]; simp⟩

theorem digitsToNat_natDigits (n : Nat) : digitsToNat (natDigits n) = n := by
  induction n using Nat.strong_induction_on with
  | _ n ih =>
    rw [natDigits]
    split
    · simp [digitsToNat, List.foldl, digitChar_val (by omega : n < 10)]
    · have h10 := ih (n / 10) (Nat.div_lt_self (by omega) (by omega))
      unfold digitsToNat at h10 ⊢
      rw [List.foldl_append, h10]
      simp [List.foldl, digitChar_val (Nat.mod_lt n (by omega) : n % 10 < 10)]
      omega

theorem takeWhile_digits_append (l r : List Char)
    (hl : ∀ c ∈ l, c.isDigit = true) (hr : headNotDigit r = true) :
    (l ++ r).takeWhile Char.isDigit = l ∧ (l ++ r).dropWhile Char.isDigit = r := by
  induction l with
  | nil =>
    cases r with
    | nil => simp
    | cons c t =>
      simp only [headNotDigit, Bool.not_eq_true'] at hr
      simp [List.takeWhile_cons, List.dropWhile_cons, hr]
  | cons a as ih =>
    have ha := hl a (List.mem_cons_self a as)
    have := ih (fun c hc => hl c (List.mem_cons_of_mem a hc))
    simp [List.takeWhile_cons, List.dropWhile_cons, ha, this.1, this.2]

theorem parseNatL_natDigits (n : Nat) (r : List Char) (hr : headNotDigit r = true) :
    parseNatL (natDigits n ++ r) = some (n, r) := by
  obtain ⟨h1, h2⟩ := takeWhile_digits_append (natDigits n) r (natDigits_all_digits n) hr
  unfold parseNatL
  rw [h1, h2, if_neg (natDigits_ne_nil n), digitsToNat_natDigits]

theorem parseIntL_serIntL (n : Int) (r : List Char) (hr : headNotDigit r = true) :
    parseIntL (serIntL n ++ r) = some (n, r) := by
  unfold serIntL
  split
  · simp only [List.cons_append, parseIntL, ite_true]
    rw [parseNatL_natDigits _ _ hr]
    simp only [Option.some.injEq, Prod.mk.injEq, and_true]
    omega
  · obtain ⟨d, t, hd, ht⟩ := natDigits_head n.toNat
    have hp := parseNatL_natDigits n.toNat r hr
    rw [ht] at hp ⊢
    simp only [List.cons_append] at hp ⊢
    simp only [parseIntL]
    rw [if_neg (by simp [digitChar_not_minus hd]), hp]
    simp only [Option.some.injEq, Prod.mk.injEq, and_true]
    omega

theorem skipWs_cons_not {c : Char} (l : List Char) (hc : isWsChar c = false) :
    skipWs (c :: l) = c :: l := by
  simp [skipWs, List.dropWhile_cons, hc]

theorem skipWs_append_ws (w l : List Char) (hw : ∀ c ∈ w, isWsChar c = true) :
    skipWs (w ++ l) = skipWs l := by
  induction w with
  | nil => simp
  | cons c t ih =>
    have hc := hw c (List.mem_cons_self c t)
    simp only [List.cons_append, skipWs, List.dropWhile_cons, hc, if_true]
    exact ih (fun x hx => hw x (List.mem_cons_of_mem c hx))

theorem spacesL_ws (k : Nat) : ∀ c ∈ spacesL k, isWsChar c = true := by
  intro c hc
  rw [spacesL, List.mem_replicate] at hc
  rw [hc.2]
  decide

theorem litL_null : litL "null" = ['n', 'u', 'l', 'l'] := rfl

theorem litL_true : litL "true" = ['t', 'r', 'u', 'e'] := rfl

theorem litL_false : litL "false" = ['f', 'a', 'l', 's', 'e'] := rfl

theorem serJsonL_head (ind : Nat) (v : Json) :
    ∃ c t, serJsonL ind v = c :: t ∧ isWsChar c = false
      ∧ ¬ c = ']' ∧ ¬ c = '\x7d' := by
  cases v with
  | num n =>
    rw [serJsonL]
    unfold serIntL
    split
    · refine ⟨'-', _, rfl, ?_, ?_, ?_⟩ <;> decide
    · obtain ⟨d, t, hd, ht⟩ := natDigits_head n.toNat
      refine ⟨Nat.digitChar d, t, ht, digitChar_not_ws hd, ?_, ?_⟩ <;>
        interval_cases d <;> decide
  | null => refine ⟨'n', _, rfl, ?_, ?_, ?_⟩ <;> decide
  | bool b =>
    cases b with
    | true => refine ⟨'t', _, rfl, ?_, ?_, ?_⟩ <;> decide
    | false => refine ⟨'f', _, rfl, ?_, ?_, ?_⟩ <;> decide
  | str s => refine ⟨'"', _, rfl, ?_, ?_, ?_⟩ <;> decide
  | arr xs =>
    cases xs with
    | nil => refine ⟨'[', _, rfl, ?_, ?_, ?_⟩ <;> decide
    | cons x t => refine ⟨'[', _, rfl, ?_, ?_, ?_⟩ <;> decide
  | obj ms =>
    cases ms with
    | nil => refine ⟨'\x7b', _, rfl, ?_, ?_, ?_⟩ <;> decide
    | cons m t => refine ⟨'\x7b', _, rfl, ?_, ?_, ?_⟩ <;> decide

theorem skipWs_cons_ws {c : Char} (l : List Char) (hc : isWsChar c = true) :
    skipWs (c :: l) = skipWs l := by
  simp [skipWs, List.dropWhile_cons, hc]

theorem ne_of_isDigit {c : Char} (h : c.isDigit = true) (x : Char)
    (hx : x.isDigit = false) : ¬ c = x := by
  intro he
  subst he
  rw [h] at hx
  cases hx

theorem skipWs_serJsonL (ind : Nat) (v : Json) (r : List Char) :
    skipWs (serJsonL ind v ++ r) = serJsonL ind v ++ r := by
  obtain ⟨c, t, hct, hws, _, _⟩ := serJsonL_head ind v
  rw [hct, List.cons_append, skipWs_cons_not _ hws]

theorem serJsonL_length_pos (ind : Nat) (v : Json) :
    1 ≤ (serJsonL ind v).length := by
  obtain ⟨c, t, hct, _, _, _⟩ := serJsonL_head ind v
  rw [hct]
  simp

theorem parseStrAux_step (c : Char) (fuel : Nat) (acc k : List Char) :
    parseStrAux (fuel + 1) acc (escapeChar c ++ k) = parseStrAux fuel (c :: acc) k := by
  by_cases h1 : c = '"'
  · subst h1
    rw [show escapeChar '"' = ['\\', '"'] from rfl]
    simp only [List.cons_append, List.nil_append]
    rw [parseStrAux]
    simp [unescapeStep]
  · by_cases h2 : c = '\\'
    · subst h2
      rw [show escapeChar '\\' = ['\\', '\\'] from rfl]
      simp only [List.cons_append, List.nil_append]
      rw [parseStrAux]
      simp [unescapeStep]
    · by_cases h3 : c = '\x08'
      · subst h3
        rw [show escapeChar '\x08' = ['\\', 'b'] from rfl]
        simp only [List.cons_append, List.nil_append]
        rw [parseStrAux]
        simp [unescapeStep]
      · by_cases h4 : c = '\x09'
        · subst h4
          rw [show escapeChar '\x09' = ['\\', 't'] from rfl]
          simp only [List.cons_append, List.nil_append]
          rw [parseStrAux]
          simp [unescapeStep]
        · by_cases h5 : c = '\x0a'
          · subst h5
            rw [show escapeChar '\x0a' = ['\\', 'n'] from rfl]
            simp only [List.cons_append, List.nil_append]
            rw [parseStrAux]
            simp [unescapeStep]
          · by_cases h6 : c = '\x0c'
            · subst h6
              rw [show escapeChar '\x0c' = ['\\', 'f'] from rfl]
              simp only [List.cons_append, List.nil_append]
              rw [parseStrAux]
              simp [unescapeStep]
            · by_cases h7 : c = '\x0d'
              · subst h7
                rw [show escapeChar '\x0d' = ['\\', 'r'] from rfl]
                simp only [List.cons_append, List.nil_append]
                rw [parseStrAux]
                simp [unescapeStep]
              · by_cases h8 : c.toNat < 32
                · have he : escapeChar c = ['\\', 'u', '0', '0',
                      Nat.digitChar (c.toNat / 16), Nat.digitChar (c.toNat % 16)] := by
                    rw [escapeChar, if_neg h1, if_neg h2, if_neg h3, if_neg h4,
                      if_neg h5, if_neg h6, if_neg h7, if_pos h8]
                  rw [he]
                  simp only [List.cons_append, List.nil_append]
                  rw [parseStrAux]
                  rw [show unescapeStep ('u' :: '0' :: '0' :: Nat.digitChar (c.toNat / 16)
                        :: Nat.digitChar (c.toNat % 16) :: k)
                      = match readHex4 ('0' :: '0' :: Nat.digitChar (c.toNat / 16)
                        :: Nat.digitChar (c.toNat % 16) :: k) with
                      | some (n, rest3) => some (Char.ofNat n, rest3)
                      | none => none by rw [unescapeStep]; rfl]
                  rw [readHex4]
                  rw [show hexVal '0' = some 0 from rfl,
                    hexVal_digitChar (by omega : c.toNat / 16 < 16),
                    hexVal_digitChar (Nat.mod_lt _ (by omega) : c.toNat % 16 < 16)]
                  have hv : 4096 * 0 + 256 * 0 + 16 * (c.toNat / 16) + c.toNat % 16
                      = c.toNat := by omega
                  simp only [hv, Char.ofNat_toNat]
                  simp
                · have he : escapeChar c = [c] := by
                    rw [escapeChar, if_neg h1, if_neg h2, if_neg h3, if_neg h4,
                      if_neg h5, if_neg h6, if_neg h7, if_neg h8]
                  rw [he]
                  simp only [List.cons_append, List.nil_append]
                  rw [parseStrAux]
                  rw [if_neg h1, if_neg h2, if_neg h8]

theorem parseStrAux_escList (l : List Char) :
    ∀ fuel acc r, l.length + 1 ≤ fuel →
      parseStrAux fuel acc (escList l ++ '"' :: r) = some (⟨acc.reverse ++ l⟩, r) := by
  induction l with
  | nil =>
    intro fuel acc r hf
    match fuel, hf with
    | f + 1, _ =>
      rw [escList, List.nil_append, parseStrAux]
      simp
  | cons c t ih =>
    intro fuel acc r hf
    match fuel, hf with
    | f + 1, hf =>
      rw [escList, List.append_assoc, parseStrAux_step, ih f (c :: acc) r (by
        simp only [List.length_cons] at hf
        omega)]
      simp

theorem escList_length (l : List Char) : l.length ≤ (escList l).length := by
  induction l with
  | nil => simp [escList]
  | cons c t ih =>
    rw [escList, List.length_append, List.length_cons]
    have : 1 ≤ (escapeChar c).length := by
      rw [escapeChar]
      split_ifs <;> simp
    omega

theorem parseVal_ws (fuel : Nat) (w cs : List Char)
    (hw : ∀ c ∈ w, isWsChar c = true) :
    parseVal (fuel + 1) (w ++ cs) = parseVal (fuel + 1) cs := by
  rw [parseVal, parseVal, skipWs_append_ws _ _ hw]

theorem parseVal_num (fuel : Nat) (n : Int) (rest : List Char)
    (hrest : headNotDigit rest = true) :
    parseVal (fuel + 1) (serIntL n ++ rest) = some (.num n, rest) := by
  have hp := parseIntL_serIntL n rest hrest
  by_cases hn : n < 0
  · have hs : serIntL n = '-' :: natDigits n.natAbs := by rw [serIntL, if_pos hn]
    rw [hs] at hp ⊢
    simp only [List.cons_append] at hp ⊢
    rw [parseVal, skipWs_cons_not _ (by decide)]
    simp only [reduceIte, Char.reduceEq]
    rw [hp]
  · have hs : serIntL n = natDigits n.toNat := by rw [serIntL, if_neg hn]
    obtain ⟨d, t, hd, ht⟩ := natDigits_head n.toNat
    rw [hs, ht] at hp ⊢
    simp only [List.cons_append] at hp ⊢
    rw [parseVal, skipWs_cons_not _ (digitChar_not_ws hd)]
    have hdd := digitChar_isDigit hd
    simp only [reduceIte, Char.reduceEq]
    rw [if_neg (ne_of_isDigit hdd 'n' (by decide)),
      if_neg (ne_of_isDigit hdd 't' (by decide)),
      if_neg (ne_of_isDigit hdd 'f' (by decide)),
      if_neg (ne_of_isDigit hdd '"' (by decide)),
      if_neg (ne_of_isDigit hdd '[' (by decide)),
      if_neg (ne_of_isDigit hdd '\x7b' (by decide)),
      if_neg (ne_of_isDigit hdd '-' (by decide)),
      if_pos hdd, hp]

theorem parseVal_str (fuel : Nat) (s : String) (rest : List Char) :
    parseVal (fuel + 1) (quoteL s ++ rest) = some (.str s, rest) := by
  rw [quoteL]
  simp only [List.cons_append, List.append_assoc, List.singleton_append,
    List.nil_append]
  rw [parseVal, skipWs_cons_not _ (by decide)]
  simp only [reduceIte, Char.reduceEq]
  rw [parseStrAux_escList s.data ((escList s.data ++ '"' :: rest).length) []
    rest (by
      have := escList_length s.data
      simp only [List.length_append, List.length_cons]
      omega)]
  rw [List.reverse_nil, List.nil_append, strMk_data]

theorem parseVal_ws_all (fuel : Nat) (w cs : List Char)
    (hw : ∀ c ∈ w, isWsChar c = true) :
    parseVal fuel (w ++ cs) = parseVal fuel cs := by
  cases fuel with
  | zero => rw [parseVal, parseVal]
  | succ fuel => exact parseVal_ws fuel w cs hw

theorem parseElemsRest_ws_all (fuel : Nat) (w cs : List Char)
    (hw : ∀ c ∈ w, isWsChar c = true) :
    parseElemsRest fuel (w ++ cs) = parseElemsRest fuel cs := by
  cases fuel with
  | zero => rw [parseElemsRest, parseElemsRest]
  | succ fuel => rw [parseElemsRest, parseElemsRest, parseVal_ws_all fuel w cs hw]

theorem parseMembersRest_ws_all (fuel : Nat) (w cs : List Char)
    (hw : ∀ c ∈ w, isWsChar c = true) :
    parseMembersRest fuel (w ++ cs) = parseMembersRest fuel cs := by
  cases fuel with
  | zero => rw [parseMembersRest, parseMembersRest]
  | succ fuel => rw [parseMembersRest, parseMembersRest, skipWs_append_ws _ _ hw]

theorem headNotDigit_elems (ind : Nat) (xs : List Json) (z : List Char) :
    headNotDigit (serElemsTail ind xs ++ '\n' :: z) = true := by
  cases xs with
  | nil => rw [serElemsTail]; rfl
  | cons y ys => rw [serElemsTail]; rfl

theorem headNotDigit_members (ind : Nat) (ms : List (String × Json)) (z : List Char) :
    headNotDigit (serMembersTail ind ms ++ '\n' :: z) = true := by
  cases ms with
  | nil => rw [serMembersTail]; rfl
  | cons m ms2 => rw [serMembersTail]; rfl

theorem consNl_append (k : Nat) (z : List Char) :
    '\n' :: (spacesL k ++ z) = ('\n' :: spacesL k) ++ z := by
  simp

theorem nl_spaces_ws (k : Nat) : ∀ c ∈ '\n' :: spacesL k, isWsChar c = true := by
  intro c hc
  rcases List.mem_cons.1 hc with h | h
  · subst h; rfl
  · exact spacesL_ws k c h

theorem space_ws : ∀ c ∈ [' '], isWsChar c = true := by
  intro c hc
  rw [List.mem_singleton] at hc
  subst hc
  rfl

theorem serMemberL_head (ind : Nat) (m : String × Json) :
    ∃ t, serMemberL ind m = '"' :: t := by
  rw [serMemberL, quoteL]
  exact ⟨escList m.1.data ++ ('"' :: ':' :: ' ' :: serJsonL ind m.2), by simp⟩

theorem parse_serJsonL (fuel : Nat) :
    (∀ (v : Json) (ind : Nat) (rest : List Char),
        (serJsonL ind v).length ≤ fuel → headNotDigit rest = true →
        parseVal fuel (serJsonL ind v ++ rest) = some (v, rest))
    ∧ (∀ (x : Json) (xs : List Json) (ind ind2 : Nat) (rest : List Char),
        (serJsonL ind x ++ serElemsTail ind xs).length + 2 ≤ fuel →
        parseElemsRest fuel
          (serJsonL ind x ++ (serElemsTail ind xs
            ++ '\n' :: (spacesL ind2 ++ ']' :: rest))) = some (x :: xs, rest))
    ∧ (∀ (k : String) (v : Json) (ms : List (String × Json)) (ind ind2 : Nat)
        (rest : List Char),
        (serMemberL ind (k, v) ++ serMembersTail ind ms).length + 2 ≤ fuel →
        parseMembersRest fuel
          (serMemberL ind (k, v) ++ (serMembersTail ind ms
            ++ '\n' :: (spacesL ind2 ++ '\x7d' :: rest))) = some ((k, v) :: ms, rest)) := by
  induction fuel with
  | zero =>
    refine ⟨?_, ?_, ?_⟩
    · intro v ind rest hlen hrest
      have := serJsonL_length_pos ind v
      omega
    · intro x xs ind ind2 rest hlen
      omega
    · intro k v ms ind ind2 rest hlen
      omega
  | succ fuel ih =>
    obtain ⟨ih1, ih2, ih3⟩ := ih
    refine ⟨?_, ?_, ?_⟩
    · intro v ind rest hlen hrest
      cases v with
      | null =>
        rw [serJsonL, litL_null]
        simp only [List.cons_append, List.nil_append]
        rw [parseVal, skipWs_cons_not _ (by decide)]
        simp
      | bool b =>
        cases b with
        | true =>
          rw [serJsonL, litL_true]
          simp only [List.cons_append, List.nil_append]
          rw [parseVal, skipWs_cons_not _ (by decide)]
          simp
        | false =>
          rw [serJsonL, litL_false]
          simp only [List.cons_append, List.nil_append]
          rw [parseVal, skipWs_cons_not _ (by decide)]
          simp
      | num n =>
        rw [serJsonL]
        exact parseVal_num fuel n rest hrest
      | str s =>
        rw [serJsonL]
        exact parseVal_str fuel s rest
      | arr xs =>
        cases xs with
        | nil =>
          rw [serJsonL]
          simp only [List.cons_append, List.nil_append]
          rw [parseVal, skipWs_cons_not _ (by decide)]
          simp only [reduceIte, Char.reduceEq]
          rw [skipWs_cons_not _ (by decide)]
          simp
        | cons x xs =>
          rw [serJsonL] at hlen ⊢
          simp only [List.cons_append, List.append_assoc, List.singleton_append,
            List.nil_append] at hlen ⊢
          rw [parseVal, skipWs_cons_not _ (by decide)]
          simp only [reduceIte, Char.reduceEq]
          rw [skipWs_cons_ws _ (by decide), skipWs_append_ws _ _ (spacesL_ws _),
            skipWs_serJsonL]
          obtain ⟨cx, tx, hx, hxw, hxne, _⟩ := serJsonL_head (ind + 2) x
          rw [hx]
          simp only [List.cons_append]
          rw [if_neg hxne]
          rw [← List.cons_append, ← hx]
          rw [ih2 x xs (ind + 2) ind rest (by
            simp only [List.length_cons, List.length_append,
              List.length_replicate] at hlen
            simp only [List.length_append]
            omega)]
      | obj ms =>
        cases ms with
        | nil =>
          rw [serJsonL]
          simp only [List.cons_append, List.nil_append]
          rw [parseVal, skipWs_cons_not _ (by decide)]
          simp only [reduceIte, Char.reduceEq]
          rw [skipWs_cons_not _ (by decide)]
          simp
        | cons m ms =>
          obtain ⟨k, v⟩ := m
          rw [serJsonL] at hlen ⊢
          simp only [List.cons_append, List.append_assoc, List.singleton_append,
            List.nil_append] at hlen ⊢
          rw [parseVal, skipWs_cons_not _ (by decide)]
          simp only [reduceIte, Char.reduceEq]
          rw [skipWs_cons_ws _ (by decide), skipWs_append_ws _ _ (spacesL_ws _)]
          obtain ⟨tm, hm⟩ := serMemberL_head (ind + 2) (k, v)
          rw [hm]
          simp only [List.cons_append]
          rw [skipWs_cons_not _ (by decide)]
          simp only [reduceIte, Char.reduceEq]
          rw [← List.cons_append, ← hm]
          rw [ih3 k v ms (ind + 2) ind rest (by
            simp only [List.length_cons, List.length_append,
              List.length_replicate] at hlen
            simp only [List.length_append]
            omega)]
    · intro x xs ind ind2 rest hlen
      cases xs with
      | nil =>
        rw [serElemsTail] at hlen ⊢
        simp only [List.nil_append, List.append_nil] at hlen ⊢
        rw [parseElemsRest]
        rw [ih1 x ind ('\n' :: (spacesL ind2 ++ ']' :: rest)) (by omega) rfl]
        simp only [reduceIte, Char.reduceEq]
        rw [skipWs_cons_ws _ (by decide), skipWs_append_ws _ _ (spacesL_ws _),
          skipWs_cons_not _ (by decide)]
        simp
      | cons y ys =>
        rw [serElemsTail] at hlen ⊢
        simp only [List.cons_append, List.append_assoc, List.length_append,
          List.length_cons] at hlen ⊢
        rw [parseElemsRest]
        rw [ih1 x ind (',' :: ('\n' :: (spacesL ind ++ (serJsonL ind y
          ++ (serElemsTail ind ys ++ '\n' :: (spacesL ind2 ++ ']' :: rest))))))
          (by omega) rfl]
        simp only [reduceIte, Char.reduceEq]
        rw [skipWs_cons_not _ (by decide)]
        simp only [reduceIte, Char.reduceEq]
        rw [consNl_append, parseElemsRest_ws_all fuel _ _ (nl_spaces_ws ind)]
        have hxpos := serJsonL_length_pos ind x
        rw [ih2 y ys ind ind2 rest (by simp only [List.length_append]; omega)]
    · intro k v ms ind ind2 rest hlen
      rw [serMemberL, quoteL] at hlen ⊢
      simp only [List.cons_append, List.append_assoc, List.singleton_append,
        List.nil_append, List.length_append, List.length_cons] at hlen ⊢
      rw [parseMembersRest, skipWs_cons_not _ (by decide)]
      simp only [reduceIte, Char.reduceEq]
      rw [parseStrAux_escList k.data _ []
        (':' :: (' ' :: (serJsonL ind v ++ (serMembersTail ind ms
          ++ '\n' :: (spacesL ind2 ++ '\x7d' :: rest)))))
        (by
          have := escList_length k.data
          simp only [List.length_append, List.length_cons]
          omega)]
      rw [List.reverse_nil, List.nil_append, strMk_data]
      simp only []
      rw [skipWs_cons_not _ (by decide)]
      simp only []
      rw [if_true]
      rw [show (' ' :: (serJsonL ind v ++ (serMembersTail ind ms
          ++ '\n' :: (spacesL ind2 ++ '\x7d' :: rest))))
        = [' '] ++ (serJsonL ind v ++ (serMembersTail ind ms
          ++ '\n' :: (spacesL ind2 ++ '\x7d' :: rest))) from rfl]
      rw [parseVal_ws_all fuel [' '] _ space_ws]
      rw [ih1 v ind (serMembersTail ind ms ++ '\n' :: (spacesL ind2 ++ '\x7d' :: rest))
        (by omega) (headNotDigit_members ind ms _)]
      cases ms with
      | nil =>
        rw [serMembersTail]
        simp only [List.nil_append]
        rw [skipWs_cons_ws _ (by decide), skipWs_append_ws _ _ (spacesL_ws _),
          skipWs_cons_not _ (by decide)]
        rfl
      | cons m ms2 =>
        obtain ⟨k2, v2⟩ := m
        rw [serMembersTail] at hlen ⊢
        simp only [List.cons_append, List.append_assoc, List.length_append,
          List.length_cons] at hlen ⊢
        rw [skipWs_cons_not _ (by decide)]
        simp only []
        rw [if_true]
        rw [consNl_append, parseMembersRest_ws_all fuel _ _ (nl_spaces_ws ind)]
        have hvpos := serJsonL_length_pos ind v
        rw [ih3 k2 v2 ms2 ind ind2 rest (by
          simp only [List.length_append]
          omega)]

theorem jsonParse_serializeJson (v : Json) :
    jsonParse (serializeJson v) = some v := by
  have h := (parse_serJsonL ((serJsonL 0 v).length + 1)).1 v 0 [] (by omega) rfl
  rw [List.append_nil] at h
  unfold jsonParse serializeJson
  simp only []
  rw [h]
  rfl

theorem data_append (a b : String) : (a ++ b).data = a.data ++ b.data := by
  cases a
  cases b
  rfl

theorem fetchWrap_ne_empty (url m : String) : ¬ fetchWrap url m = "" := by
  intro h
  have hd := congrArg String.data h
  rw [fetchWrap, data_append, data_append, data_append] at hd
  simp at hd

theorem runOp_error (env : Env) (req : RequestPayload) (fmt : OutputFormat)
    (e : String) (effs : List Effect)
    (h : fetchAndSave env req.url fmt = (.error e, effs)) :
    runOp env req fmt = (⟨[e], true⟩, effs) := by
  unfold runOp
  rw [h]

theorem runOp_ok (env : Env) (req : RequestPayload) (fmt : OutputFormat)
    (fp ct : String) (effs : List Effect)
    (h : fetchAndSave env req.url fmt = (.ok (fp, ct), effs)) :
    runOp env req fmt
      = (⟨["File saved to: " ++ fp, "Content-Type: " ++ ct], false⟩, effs) := by
  unfold runOp
  rw [h]

theorem fetchAndSave_dirFail (env : Env) (url : String) (fmt : OutputFormat)
    (e : String) (h : env.mkdirError = some e) :
    fetchAndSave env url fmt
      = (.error (fetchWrap url ("Failed to create download directory: " ++ e)), []) := by
  unfold fetchAndSave fetchAndSaveRaw
  rw [h]

theorem fetchAndSave_priv (env : Env) (url : String) (fmt : OutputFormat)
    (hmk : env.mkdirError = none) (hip : env.isIpPrivate url = true) :
    fetchAndSave env url fmt
      = (.error (fetchWrap url (privateIpMessage url)), [Effect.mkdir env.downloadDir]) := by
  unfold fetchAndSave fetchAndSaveRaw
  rw [hmk]
  simp only [hip, if_true]

theorem fetchAndSave_fetchErr (env : Env) (url : String) (fmt : OutputFormat)
    (e : String) (hmk : env.mkdirError = none) (hip : env.isIpPrivate url = false)
    (hf : env.fetchResult = .error e) :
    fetchAndSave env url fmt
      = (.error (fetchWrap url e), [Effect.mkdir env.downloadDir]) := by
  unfold fetchAndSave fetchAndSaveRaw
  rw [hmk]
  simp only [hip, if_false, Bool.false_eq_true]
  rw [hf]

theorem fetchAndSave_httpErr (env : Env) (url : String) (fmt : OutputFormat)
    (resp : HttpResponse) (hmk : env.mkdirError = none)
    (hip : env.isIpPrivate url = false) (hf : env.fetchResult = .ok resp)
    (hres : responseOk resp = false) :
    fetchAndSave env url fmt
      = (.error (fetchWrap url ("HTTP error: " ++ Nat.repr resp.status)),
          [Effect.mkdir env.downloadDir]) := by
  unfold fetchAndSave fetchAndSaveRaw
  rw [hmk]
  simp only [hip, if_false, Bool.false_eq_true]
  rw [hf]
  simp only [hres, if_false, Bool.false_eq_true]

theorem fetchAndSave_success (env : Env) (url : String) (fmt : OutputFormat)
    (resp : HttpResponse) (content fn : String)
    (hmk : env.mkdirError = none) (hip : env.isIpPrivate url = false)
    (hf : env.fetchResult = .ok resp) (hres : responseOk resp = true)
    (ht : transform env resp fmt = .ok content)
    (hgen : generateUniqueFilename env.isoNow env.randBytes url (extensionOf fmt)
      = some fn)
    (hw : env.writeError = none) :
    fetchAndSave env url fmt
      = (.ok (pathJoin env.downloadDir fn, contentTypeOf fmt),
          [Effect.mkdir env.downloadDir,
            Effect.write (pathJoin env.downloadDir fn) content]) := by
  unfold fetchAndSave fetchAndSaveRaw
  rw [hmk]
  simp only [hip, if_false, Bool.false_eq_true]
  rw [hf]
  simp only [hres, if_true]
  rw [ht, hgen, hw]
  rfl

theorem fetchAndSave_error_shape (env : Env) (url : String) (fmt : OutputFormat)
    (e : String) (effs : List Effect)
    (h : fetchAndSave env url fmt = (.error e, effs)) :
    ∃ m, e = fetchWrap url m := by
  unfold fetchAndSave at h
  rcases hraw : fetchAndSaveRaw env url fmt with ⟨res0, effs0⟩
  rw [hraw] at h
  cases res0 with
  | error m =>
    simp only [Prod.mk.injEq, Except.error.injEq] at h
    exact ⟨m, h.1.symm⟩
  | ok r => simp at h

theorem fetchAndSave_ok_inv (env : Env) (url : String) (fmt : OutputFormat)
    (r : String × String) (effs : List Effect)
    (h : fetchAndSave env url fmt = (.ok r, effs)) :
    env.mkdirError = none ∧ env.isIpPrivate url = false ∧
    ∃ resp content fn,
      env.fetchResult = .ok resp ∧ responseOk resp = true ∧
      transform env resp fmt = .ok content ∧
      generateUniqueFilename env.isoNow env.randBytes url (extensionOf fmt)
        = some fn ∧
      env.writeError = none ∧
      r = (pathJoin env.downloadDir fn, contentTypeOf fmt) ∧
      effs = [Effect.mkdir env.downloadDir,
        Effect.write (pathJoin env.downloadDir fn) content] := by
  unfold fetchAndSave fetchAndSaveRaw at h
  rcases hmk : env.mkdirError with _ | e
  · rw [hmk] at h
    simp only [] at h
    cases hip : env.isIpPrivate url
    · rw [hip] at h
      simp only [if_false, Bool.false_eq_true] at h
      rcases hf : env.fetchResult with e | resp
      · rw [hf] at h
        simp at h
      · rw [hf] at h
        simp only [] at h
        cases hres : responseOk resp
        · rw [hres] at h
          simp at h
        · rw [hres] at h
          rw [if_pos rfl] at h
          rcases ht : transform env resp fmt with e | content
          · rw [ht] at h
            simp at h
          · rw [ht] at h
            simp only [] at h
            rcases hgen : generateUniqueFilename env.isoNow env.randBytes url
                (extensionOf fmt) with _ | fn
            · rw [hgen] at h
              simp at h
            · rw [hgen] at h
              simp only [] at h
              rcases hw : env.writeError with _ | e
              · rw [hw] at h
                simp only [Prod.mk.injEq, Except.ok.injEq,
                  List.cons_append, List.nil_append] at h
                refine ⟨rfl, ?_, resp, content, fn, ?_, ?_, ?_, ?_, ?_,
                  h.1.symm, h.2.symm⟩ <;> first | rfl | assumption
              · rw [hw] at h
                simp at h
    · rw [hip] at h
      simp at h
  · rw [hmk] at h
    simp at h

theorem write_not_mem_mkdir (d : String) :
    ∀ p c, Effect.write p c ∉ [Effect.mkdir d] := by
  intro p c h
  rw [List.mem_singleton] at h
  exact Effect.noConfusion h

theorem runOp_priv (env : Env) (req : RequestPayload) (fmt : OutputFormat)
    (hmk : env.mkdirError = none) (hip : env.isIpPrivate req.url = true) :
    runOp env req fmt
      = (⟨[fetchWrap req.url (privateIpMessage req.url)], true⟩,
          [Effect.mkdir env.downloadDir]) :=
  runOp_error env req fmt _ _ (fetchAndSave_priv env req.url fmt hmk hip)

theorem runOp_dirFail (env : Env) (req : RequestPayload) (fmt : OutputFormat)
    (e : String) (hmk : env.mkdirError = some e) :
    runOp env req fmt
      = (⟨[fetchWrap req.url ("Failed to create download directory: " ++ e)], true⟩,
          []) :=
  runOp_error env req fmt _ _ (fetchAndSave_dirFail env req.url fmt e hmk)

theorem runOp_httpErr (env : Env) (req : RequestPayload) (fmt : OutputFormat)
    (resp : HttpResponse) (hmk : env.mkdirError = none)
    (hip : env.isIpPrivate req.url = false) (hf : env.fetchResult = .ok resp)
    (hres : responseOk resp = false) :
    runOp env req fmt
      = (⟨[fetchWrap req.url ("HTTP error: " ++ Nat.repr resp.status)], true⟩,
          [Effect.mkdir env.downloadDir]) :=
  runOp_error env req fmt _ _
    (fetchAndSave_httpErr env req.url fmt resp hmk hip hf hres)

/-! ### The claims -/

set_option maxRecDepth 8192

/-- C1 (counterexample): at a concrete request whose host 10.0.0.1 the
`private-ip` collaborator classifies as private, the operation's single
message is the code's wording ("a local MCP could fetch...") and is not the
claimed wording ("a local agent could fetch..."), so the claim's exact
message is refuted. -/
theorem c1_counterexample :
    (Fetcher.html envPriv reqPriv).1.isError = true ∧
    (Fetcher.html envPriv reqPriv).1.content
      = ["Failed to fetch http://10.0.0.1/: Fetcher blocked an attempt to fetch a private IP http://10.0.0.1/. This is to prevent a security vulnerability where a local MCP could fetch privileged local IPs and exfiltrate data."] ∧
    ¬ (Fetcher.html envPriv reqPriv).1.content
      = ["Failed to fetch http://10.0.0.1/: Fetcher blocked an attempt to fetch a private IP http://10.0.0.1/. This is to prevent a security vulnerability where a local agent could fetch privileged local IPs and exfiltrate data."] := by
  refine ⟨by decide, by decide, by decide⟩

/-- C1 (amended): for every request that the `private-ip` collaborator
classifies as private (with the download directory creatable), each of the
four operations returns `isError: true` with the single message
`Failed to fetch <url>: Fetcher blocked an attempt to fetch a private IP
<url>. This is to prevent a security vulnerability where a local MCP could
fetch privileged local IPs and exfiltrate data.`, and no file is written. -/
theorem c1_private_ip_blocked (env : Env) (req : RequestPayload)
    (hmk : env.mkdirError = none) (hip : env.isIpPrivate req.url = true) :
    ((Fetcher.html env req).1.isError = true ∧
      (Fetcher.html env req).1.content
        = [fetchWrap req.url (privateIpMessage req.url)] ∧
      ∀ p c, Effect.write p c ∉ (Fetcher.html env req).2) ∧
    ((Fetcher.json env req).1.isError = true ∧
      (Fetcher.json env req).1.content
        = [fetchWrap req.url (privateIpMessage req.url)] ∧
      ∀ p c, Effect.write p c ∉ (Fetcher.json env req).2) ∧
    ((Fetcher.txt env req).1.isError = true ∧
      (Fetcher.txt env req).1.content
        = [fetchWrap req.url (privateIpMessage req.url)] ∧
      ∀ p c, Effect.write p c ∉ (Fetcher.txt env req).2) ∧
    ((Fetcher.markdown env req).1.isError = true ∧
      (Fetcher.markdown env req).1.content
        = [fetchWrap req.url (privateIpMessage req.url)] ∧
      ∀ p c, Effect.write p c ∉ (Fetcher.markdown env req).2) := by
  refine ⟨?_, ?_, ?_, ?_⟩ <;>
    (first
      | rw [show Fetcher.html env req = runOp env req .html from rfl,
          runOp_priv env req .html hmk hip]
      | rw [show Fetcher.json env req = runOp env req .json from rfl,
          runOp_priv env req .json hmk hip]
      | rw [show Fetcher.txt env req = runOp env req .txt from rfl,
          runOp_priv env req .txt hmk hip]
      | rw [show Fetcher.markdown env req = runOp env req .markdown from rfl,
          runOp_priv env req .markdown hmk hip]) <;>
    exact ⟨rfl, rfl, write_not_mem_mkdir env.downloadDir⟩

/-- C1 (witness): the amended statement instantiated at the concrete
blocked request. -/
theorem c1_private_ip_blocked_witness :
    envPriv.mkdirError = none ∧ envPriv.isIpPrivate reqPriv.url = true ∧
    ((Fetcher.html envPriv reqPriv).1.isError = true ∧
      (Fetcher.html envPriv reqPriv).1.content
        = [fetchWrap reqPriv.url (privateIpMessage reqPriv.url)] ∧
      ∀ p c, Effect.write p c ∉ (Fetcher.html envPriv reqPriv).2) :=
  ⟨rfl, rfl, (c1_private_ip_blocked envPriv reqPriv rfl rfl).1⟩

/-- C2 (code bug): at the malformed URL of the repository's own integration
test ("not-a-valid-url"), with a healthy filesystem, a falsy `private-ip`
verdict and `fetch` rejecting with Node's URL-parse error, `Fetcher.html`
creates the download directory first and returns the generic rewrap of the
fetch error, whose text does not contain "Invalid URL format" — the
rejection is neither the claimed message nor prior to filesystem side
effects, contradicting the spec and the integration test's expectation. -/
theorem c2_invalid_url_behavior :
    (Fetcher.html envBadUrl reqBadUrl).1.isError = true ∧
    (Fetcher.html envBadUrl reqBadUrl).1.content
      = ["Failed to fetch not-a-valid-url: Failed to parse URL from not-a-valid-url"] ∧
    containsStr "Failed to fetch not-a-valid-url: Failed to parse URL from not-a-valid-url"
      "Invalid URL format" = false ∧
    Effect.mkdir "/downloads" ∈ (Fetcher.html envBadUrl reqBadUrl).2 := by
  refine ⟨by decide, by decide, by decide, by decide⟩

/-- C8 (counterexample): when `fs.mkdir` fails with "Permission denied",
the surfaced message is not the bare string
`Failed to create download directory: Permission denied`; it is that string
wrapped in the `Failed to fetch <url>: ` prefix by `_fetchAndSave`'s catch
block. -/
theorem c8_counterexample :
    (Fetcher.html envDirFail reqEx).1.isError = true ∧
    ¬ (Fetcher.html envDirFail reqEx).1.content
        = ["Failed to create download directory: Permission denied"] ∧
    (Fetcher.html envDirFail reqEx).1.content
      = ["Failed to fetch https://example.com: Failed to create download directory: Permission denied"] := by
  refine ⟨by decide, by decide, by decide⟩

/-- C8 (amended): for every request for which creation of the download
directory fails, each of the four operations returns an error result whose
message is exactly `Failed to fetch <url>: Failed to create download
directory: <reason>` — the distinct directory-creation string wrapped in
the standard fetch-failure prefix. -/
theorem c8_dir_creation_failure (env : Env) (req : RequestPayload) (e : String)
    (hmk : env.mkdirError = some e) :
    ((Fetcher.html env req).1.isError = true ∧
      (Fetcher.html env req).1.content
        = [fetchWrap req.url ("Failed to create download directory: " ++ e)]) ∧
    ((Fetcher.json env req).1.isError = true ∧
      (Fetcher.json env req).1.content
        = [fetchWrap req.url ("Failed to create download directory: " ++ e)]) ∧
    ((Fetcher.txt env req).1.isError = true ∧
      (Fetcher.txt env req).1.content
        = [fetchWrap req.url ("Failed to create download directory: " ++ e)]) ∧
    ((Fetcher.markdown env req).1.isError = true ∧
      (Fetcher.markdown env req).1.content
        = [fetchWrap req.url ("Failed to create download directory: " ++ e)]) := by
  refine ⟨?_, ?_, ?_, ?_⟩ <;>
    (first
      | rw [show Fetcher.html env req = runOp env req .html from rfl,
          runOp_dirFail env req .html e hmk]
      | rw [show Fetcher.json env req = runOp env req .json from rfl,
          runOp_dirFail env req .json e hmk]
      | rw [show Fetcher.txt env req = runOp env req .txt from rfl,
          runOp_dirFail env req .txt e hmk]
      | rw [show Fetcher.markdown env req = runOp env req .markdown from rfl,
          runOp_dirFail env req .markdown e hmk]) <;>
    exact ⟨rfl, rfl⟩

/-- C8 (witness): the amended statement instantiated at the concrete
permission failure. -/
theorem c8_dir_creation_failure_witness :
    envDirFail.mkdirError = some "Permission denied" ∧
    ((Fetcher.html envDirFail reqEx).1.isError = true ∧
      (Fetcher.html envDirFail reqEx).1.content
        = [fetchWrap reqEx.url
            ("Failed to create download directory: " ++ "Permission denied")]) :=
  ⟨rfl, (c8_dir_creation_failure envDirFail reqEx "Permission denied" rfl).1⟩

theorem runOp_error_shape (env : Env) (req : RequestPayload) (fmt : OutputFormat)
    (e : String) (effs : List Effect)
    (h : fetchAndSave env req.url fmt = (.error e, effs)) :
    (runOp env req fmt).1.isError = true ∧
    ∃ s ∈ (runOp env req fmt).1.content, ¬ s = "" := by
  obtain ⟨m, rfl⟩ := fetchAndSave_error_shape env req.url fmt e effs h
  rw [runOp_error env req fmt _ _ h]
  exact ⟨rfl, fetchWrap req.url m, List.mem_singleton.2 rfl,
    fetchWrap_ne_empty req.url m⟩

/-- C3: whenever any pipeline stage fails — that is, whenever the embedded
`_fetchAndSave` settles to a caught error for the request — each of the four
public operations still returns a `FetchResult` (the operations are total
functions of the oracle environment, so no exception escapes) with
`isError: true` and at least one non-empty text segment. -/
theorem c3_uniform_error_shape (env : Env) (req : RequestPayload) :
    (∀ e effs, fetchAndSave env req.url .html = (.error e, effs) →
      (Fetcher.html env req).1.isError = true ∧
      ∃ s ∈ (Fetcher.html env req).1.content, ¬ s = "") ∧
    (∀ e effs, fetchAndSave env req.url .json = (.error e, effs) →
      (Fetcher.json env req).1.isError = true ∧
      ∃ s ∈ (Fetcher.json env req).1.content, ¬ s = "") ∧
    (∀ e effs, fetchAndSave env req.url .txt = (.error e, effs) →
      (Fetcher.txt env req).1.isError = true ∧
      ∃ s ∈ (Fetcher.txt env req).1.content, ¬ s = "") ∧
    (∀ e effs, fetchAndSave env req.url .markdown = (.error e, effs) →
      (Fetcher.markdown env req).1.isError = true ∧
      ∃ s ∈ (Fetcher.markdown env req).1.content, ¬ s = "") :=
  ⟨fun e effs h => runOp_error_shape env req .html e effs h,
    fun e effs h => runOp_error_shape env req .json e effs h,
    fun e effs h => runOp_error_shape env req .txt e effs h,
    fun e effs h => runOp_error_shape env req .markdown e effs h⟩

/-- C3 (witness): the error shape at the concrete 404 environment. -/
theorem c3_uniform_error_shape_witness :
    fetchAndSave env404 reqEx.url .html
      = (.error "Failed to fetch https://example.com: HTTP error: 404",
          [Effect.mkdir "/downloads"]) ∧
    ((Fetcher.html env404 reqEx).1.isError = true ∧
      ∃ s ∈ (Fetcher.html env404 reqEx).1.content, ¬ s = "") :=
  ⟨rfl, (c3_uniform_error_shape env404 reqEx).1 _ _ rfl⟩

theorem runOp_ok_shape (env : Env) (req : RequestPayload) (fmt : OutputFormat)
    (h : (runOp env req fmt).1.isError = false) :
    ∃ fp, (runOp env req fmt).1.content
      = ["File saved to: " ++ fp, "Content-Type: " ++ contentTypeOf fmt] := by
  rcases hfs : fetchAndSave env req.url fmt with ⟨r, effs0⟩
  cases r with
  | error e =>
    rw [runOp_error env req fmt e effs0 hfs] at h
    simp at h
  | ok r0 =>
    obtain ⟨fp, ct⟩ := r0
    obtain ⟨-, -, resp, content, fn, -, -, -, -, -, hr, -⟩ :=
      fetchAndSave_ok_inv env req.url fmt (fp, ct) effs0 hfs
    obtain ⟨h1, h2⟩ := Prod.mk.injEq .. ▸ hr
    rw [runOp_ok env req fmt fp ct effs0 hfs]
    exact ⟨fp, by rw [h2]⟩

/-- C4: whenever one of the four operations succeeds, its result is
`isError: false` with exactly two text segments in fixed order — the file
path segment, then the content-type segment carrying the kind's canonical
content type (`text/html`, `application/json`, `text/plain`,
`text/markdown`); in particular the content list is non-empty. -/
theorem c4_success_shape (env : Env) (req : RequestPayload) :
    ((Fetcher.html env req).1.isError = false →
      ∃ fp, (Fetcher.html env req).1.content
        = ["File saved to: " ++ fp, "Content-Type: " ++ "text/html"]) ∧
    ((Fetcher.json env req).1.isError = false →
      ∃ fp, (Fetcher.json env req).1.content
        = ["File saved to: " ++ fp, "Content-Type: " ++ "application/json"]) ∧
    ((Fetcher.txt env req).1.isError = false →
      ∃ fp, (Fetcher.txt env req).1.content
        = ["File saved to: " ++ fp, "Content-Type: " ++ "text/plain"]) ∧
    ((Fetcher.markdown env req).1.isError = false →
      ∃ fp, (Fetcher.markdown env req).1.content
        = ["File saved to: " ++ fp, "Content-Type: " ++ "text/markdown"]) :=
  ⟨fun h => runOp_ok_shape env req .html h,
    fun h => runOp_ok_shape env req .json h,
    fun h => runOp_ok_shape env req .txt h,
    fun h => runOp_ok_shape env req .markdown h⟩

/-- C4 (witness): end-to-end scenario 1 — a mocked successful HTML
response yields the two-segment success shape. -/
theorem c4_success_shape_witness :
    (Fetcher.html envOk reqEx).1.isError = false ∧
    (∃ fp, (Fetcher.html envOk reqEx).1.content
      = ["File saved to: " ++ fp, "Content-Type: " ++ "text/html"]) ∧
    (Fetcher.html envOk reqEx).1.content
      = ["File saved to: /downloads/20231027T103000Z-a1b2c3d4-example_com.html",
          "Content-Type: text/html"] :=
  ⟨by decide, (c4_success_shape envOk reqEx).1 (by decide), by decide⟩

/-- C7: for every request whose HTTP response status lies outside the
2xx/3xx range (so `response.ok` is false), each of the four operations
returns an error result with the exact message
`Failed to fetch <url>: HTTP error: <status>` and writes no file. -/
theorem c7_http_error (env : Env) (req : RequestPayload) (resp : HttpResponse)
    (hmk : env.mkdirError = none) (hip : env.isIpPrivate req.url = false)
    (hf : env.fetchResult = .ok resp)
    (hcls : resp.status < 200 ∨ 400 ≤ resp.status) :
    ((Fetcher.html env req).1.isError = true ∧
      (Fetcher.html env req).1.content
        = [fetchWrap req.url ("HTTP error: " ++ Nat.repr resp.status)] ∧
      ∀ p c, Effect.write p c ∉ (Fetcher.html env req).2) ∧
    ((Fetcher.json env req).1.isError = true ∧
      (Fetcher.json env req).1.content
        = [fetchWrap req.url ("HTTP error: " ++ Nat.repr resp.status)] ∧
      ∀ p c, Effect.write p c ∉ (Fetcher.json env req).2) ∧
    ((Fetcher.txt env req).1.isError = true ∧
      (Fetcher.txt env req).1.content
        = [fetchWrap req.url ("HTTP error: " ++ Nat.repr resp.status)] ∧
      ∀ p c, Effect.write p c ∉ (Fetcher.txt env req).2) ∧
    ((Fetcher.markdown env req).1.isError = true ∧
      (Fetcher.markdown env req).1.content
        = [fetchWrap req.url ("HTTP error: " ++ Nat.repr resp.status)] ∧
      ∀ p c, Effect.write p c ∉ (Fetcher.markdown env req).2) := by
  have hres : responseOk resp = false := by
    unfold responseOk
    rcases hcls with h | h <;> simp <;> omega
  refine ⟨?_, ?_, ?_, ?_⟩ <;>
    (first
      | rw [show Fetcher.html env req = runOp env req .html from rfl,
          runOp_httpErr env req .html resp hmk hip hf hres]
      | rw [show Fetcher.json env req = runOp env req .json from rfl,
          runOp_httpErr env req .json resp hmk hip hf hres]
      | rw [show Fetcher.txt env req = runOp env req .txt from rfl,
          runOp_httpErr env req .txt resp hmk hip hf hres]
      | rw [show Fetcher.markdown env req = runOp env req .markdown from rfl,
          runOp_httpErr env req .markdown resp hmk hip hf hres]) <;>
    exact ⟨rfl, rfl, write_not_mem_mkdir env.downloadDir⟩

/-- C7 (witness): end-to-end scenario 2 — a 404 response yields exactly
`Failed to fetch https://example.com: HTTP error: 404`. -/
theorem c7_http_error_witness :
    env404.mkdirError = none ∧ env404.fetchResult = .ok resp404 ∧
    (resp404.status < 200 ∨ 400 ≤ resp404.status) ∧
    ((Fetcher.html env404 reqEx).1.isError = true ∧
      (Fetcher.html env404 reqEx).1.content
        = [fetchWrap reqEx.url ("HTTP error: " ++ Nat.repr resp404.status)] ∧
      ∀ p c, Effect.write p c ∉ (Fetcher.html env404 reqEx).2) ∧
    fetchWrap reqEx.url ("HTTP error: " ++ Nat.repr resp404.status)
      = "Failed to fetch https://example.com: HTTP error: 404" :=
  ⟨rfl, rfl, Or.inr (by decide),
    (c7_http_error env404 reqEx resp404 rfl rfl rfl (Or.inr (by decide))).1,
    by decide⟩

/-- C5: with the clock and random source held fixed, the filename generator
is a pure function of `(url, extension)` producing
`<timestamp>Z-<hex>-<basename>.<extension>`; at the golden inputs of the
repository's unit test (clock 2023-10-27T10:30:00Z, random bytes
`a1b2c3d4`) it yields `20231027T103000Z-a1b2c3d4-page.html`. -/
theorem c5_filename_determinism :
    (∀ (isoNow : String) (randBytes : List Nat) (url extension : String) (u : Url),
      parseUrl url = some u →
      generateUniqueFilename isoNow randBytes url extension
        = some (timestampOf isoNow ++ "-" ++ bytesToHex randBytes ++ "-"
            ++ baseNameOf u ++ "." ++ extension)) ∧
    generateUniqueFilename isoFixed bytesFixed
      "https://example.com/path/to/page" "html"
      = some "20231027T103000Z-a1b2c3d4-page.html" := by
  constructor
  · intro iso rand url ext u hp
    unfold generateUniqueFilename
    rw [hp]
  · decide

/-- C5 (witness): the format equation instantiated at the golden URL. -/
theorem c5_filename_determinism_witness :
    parseUrl "https://example.com/path/to/page"
      = some ⟨"example.com", "/path/to/page"⟩ ∧
    generateUniqueFilename isoFixed bytesFixed
      "https://example.com/path/to/page" "html"
      = some (timestampOf isoFixed ++ "-" ++ bytesToHex bytesFixed ++ "-"
          ++ baseNameOf ⟨"example.com", "/path/to/page"⟩ ++ "." ++ "html") :=
  ⟨by decide, c5_filename_determinism.1 isoFixed bytesFixed
    "https://example.com/path/to/page" "html"
    ⟨"example.com", "/path/to/page"⟩ (by decide)⟩

theorem truncate50_le (t : String) : (truncate50 t).data.length ≤ 50 := by
  simp only [truncate50, List.length_take]
  omega

/-- C6: the generated filename's basename replaces every character outside
`[A-Za-z0-9_-]` one-for-one with an underscore (the sanitization is a
character-wise map preserving length) and truncates the sanitized text to
at most 50 characters; the basename comes from the last path segment when
one exists and falls back to the sanitized hostname otherwise, so
`https://example.com` yields `example_com`. -/
theorem c6_basename_sanitization :
    (∀ s : String, (sanitizeBase s).data.length = s.data.length ∧
      ∀ (i : Nat) (h1 : i < (sanitizeBase s).data.length)
        (h2 : i < s.data.length),
        (sanitizeBase s).data.get ⟨i, h1⟩ = sanitizeChar (s.data.get ⟨i, h2⟩)) ∧
    (∀ (u : Url) (seg : String),
      (pathSegments u.pathname).getLast? = some seg →
      baseNameOf u = truncate50 (sanitizeBase seg) ∧
        (baseNameOf u).data.length ≤ 50) ∧
    (∀ u : Url, pathSegments u.pathname = [] →
      baseNameOf u = truncate50 (sanitizeBase u.hostname) ∧
        (baseNameOf u).data.length ≤ 50) ∧
    baseNameOf ⟨"example.com", "/"⟩ = "example_com" := by
  refine ⟨?_, ?_, ?_, by decide⟩
  · intro s
    constructor
    · simp [sanitizeBase]
    · intro i h1 h2
      simp [sanitizeBase, List.get_eq_getElem]
  · intro u seg hseg
    have hb : baseNameOf u = truncate50 (sanitizeBase seg) := by
      unfold baseNameOf
      simp only []
      rw [hseg]
    exact ⟨hb, by rw [hb]; exact truncate50_le _⟩
  · intro u hseg
    have hb : baseNameOf u = truncate50 (sanitizeBase u.hostname) := by
      unfold baseNameOf
      simp only []
      rw [hseg]
      rfl
    exact ⟨hb, by rw [hb]; exact truncate50_le _⟩

/-- C6 (witness): the last-segment and hostname-fallback clauses
instantiated at concrete URLs. -/
theorem c6_basename_sanitization_witness :
    (pathSegments "/some(file)").getLast? = some "some(file)" ∧
    (baseNameOf ⟨"example.com", "/some(file)"⟩
        = truncate50 (sanitizeBase "some(file)") ∧
      (baseNameOf ⟨"example.com", "/some(file)"⟩).data.length ≤ 50) ∧
    pathSegments "/" = [] ∧
    (baseNameOf ⟨"example.com", "/"⟩ = truncate50 (sanitizeBase "example.com") ∧
      (baseNameOf ⟨"example.com", "/"⟩).data.length ≤ 50) :=
  ⟨by decide,
    c6_basename_sanitization.2.1 ⟨"example.com", "/some(file)"⟩ "some(file)"
      (by decide),
    by decide,
    c6_basename_sanitization.2.2.1 ⟨"example.com", "/"⟩ (by decide)⟩

/-- C9: whenever the json operation succeeds, the persisted file content is
the platform-parsed response JSON re-serialized with two-space indentation,
and parsing that content back yields exactly the response JSON value — the
parse-after-serialize round trip holds for every JSON value. -/
theorem c9_json_roundtrip (env : Env) (req : RequestPayload)
    (res : FetchResult) (effs : List Effect)
    (heq : Fetcher.json env req = (res, effs)) (hok : res.isError = false) :
    ∃ resp v p, env.fetchResult = .ok resp ∧ resp.bodyJson = .ok v ∧
      Effect.write p (serializeJson v) ∈ effs ∧
      jsonParse (serializeJson v) = some v := by
  rw [show Fetcher.json env req = runOp env req .json from rfl] at heq
  rcases hfs : fetchAndSave env req.url .json with ⟨r, effs0⟩
  cases r with
  | error e =>
    rw [runOp_error env req .json e effs0 hfs] at heq
    cases heq
    simp at hok
  | ok r0 =>
    obtain ⟨fp, ct⟩ := r0
    obtain ⟨-, -, resp, content, fn, hf, -, ht, -, -, -, heffs⟩ :=
      fetchAndSave_ok_inv env req.url .json (fp, ct) effs0 hfs
    rw [runOp_ok env req .json fp ct effs0 hfs] at heq
    cases heq
    rcases hbj : resp.bodyJson with e | v
    · rw [show transform env resp .json = (match resp.bodyJson with
          | .ok v => .ok (serializeJson v)
          | .error e => .error e) from rfl, hbj] at ht
      simp at ht
    · rw [show transform env resp .json = (match resp.bodyJson with
          | .ok v => .ok (serializeJson v)
          | .error e => .error e) from rfl, hbj] at ht
      simp only [Except.ok.injEq] at ht

      refine ⟨resp, v, pathJoin env.downloadDir fn, hf, hbj, ?_,
        jsonParse_serializeJson v⟩
      rw [heffs, ← ht]
      simp

/-- C9 (witness): the round trip at a concrete successful json run whose
response JSON is the object with one member `key: "value"`. -/
theorem c9_json_roundtrip_witness :
    Fetcher.json envJson reqEx
      = ((Fetcher.json envJson reqEx).1, (Fetcher.json envJson reqEx).2) ∧
    (Fetcher.json envJson reqEx).1.isError = false ∧
    ∃ resp v p, envJson.fetchResult = .ok resp ∧ resp.bodyJson = .ok v ∧
      Effect.write p (serializeJson v) ∈ (Fetcher.json envJson reqEx).2 ∧
      jsonParse (serializeJson v) = some v :=
  ⟨rfl, by decide,
    c9_json_roundtrip envJson reqEx (Fetcher.json envJson reqEx).1
      (Fetcher.json envJson reqEx).2 rfl (by decide)⟩

/-- C10: for an HTML response whose body element carries no visible text
once scripts and styles are removed (the extraction oracle returns the
whitespace-only text JSDOM would produce for such a body), the txt
operation succeeds with `isError: false` and writes a file whose content is
the empty string, while the result's own two text segments are non-empty. -/
theorem c10_empty_text_file :
    Fetcher.txt envBlank reqBlank
      = (⟨["File saved to: /downloads/20231027T103000Z-a1b2c3d4-blank.txt",
            "Content-Type: text/plain"], false⟩,
          [Effect.mkdir "/downloads",
            Effect.write "/downloads/20231027T103000Z-a1b2c3d4-blank.txt" ""]) := by
  decide

end DeferredFetch
